import Mathlib

/-!
# FatSecret proxy (`server.js`): token cache and query relay

A shallow embedding of `server.js`.  The module state (`accessToken`,
`tokenExpiration`) is passed explicitly; the two readings of `Date.now()`,
the answer of the identity endpoint and the answer of the upstream endpoint
are inputs of the functions; the network calls made and the HTTP reply sent are
outputs.

Conventions of the embedding.

* JS numbers are `Option Int`: `some n` is the integer `n`, `none` is `NaN`.
  Clock readings are whole seconds (`Math.floor(Date.now() / 1000)`), so all the
  arithmetic of the program on them is integer arithmetic; it is exact for
  doubles as long as the values stay below `2^53`.  JSON numbers with a
  fractional part are not modelled.
* A value read from a parsed JSON document is `Option Json`: `none` is
  `undefined`.
* A thrown `Error` is the `String` of its `message`, carried in `Except`.
* Query parameters are optional strings (`req.query.x` is `undefined` when the
  parameter is absent from the URL, the empty string for `?x=`); parameters that
  the query parser turns into arrays or objects are not modelled.
* A network call is recorded with its URL and its payload.  The `Basic` header of
  the identity call, built from the two environment variables, is not recorded.
-/

namespace FitIA

/-! ## JavaScript values -/

/-- A parsed JSON document, as returned by `response.json()`. -/
inductive Json where
  | null : Json
  | bool (b : Bool) : Json
  | num (n : Int) : Json
  | str (s : String) : Json
  | arr (xs : List Json) : Json
  | obj (kvs : List (String × Json)) : Json

/-- What the program relies on from the JavaScript engine without defining it
itself: the message of the `TypeError` raised by a property read on `null`, and
the number produced by `t + v - 60` when `v` is a string, an array or an object
(there `+` concatenates strings and `-` converts the result back to a number). -/
structure Runtime where
  nullReadMsg : String
  concatMinus60 : Int → Json → Option Int

/-- JS truthiness of a JSON value: `null`, `false`, `0` and `""` are falsy. -/
def Json.truthy : Json → Bool
  | .null => false
  | .bool b => b
  | .num n => n != 0
  | .str s => s != ""
  | .arr _ => true
  | .obj _ => true

/-- JS truthiness of a value that may be `undefined`. -/
def truthy? : Option Json → Bool
  | none => false
  | some v => v.truthy

/-- The own property `key` of a parsed JSON value: present only on objects. -/
def Json.field? (data : Json) (key : String) : Option Json :=
  match data with
  | .obj kvs => kvs.lookup key
  | _ => none

/-- The property read `data.key`: throws a `TypeError` on `null`, gives
`undefined` when the property does not exist. -/
def Json.prop (rt : Runtime) (data : Json) (key : String) : Except String (Option Json) :=
  match data with
  | .null => .error rt.nullReadMsg
  | _ => .ok (data.field? key)

/-- The comparison `now < tokenExpiration`; every comparison with `NaN` is false. -/
def jsLt (now : Int) (tokenExpiration : Option Int) : Bool :=
  match tokenExpiration with
  | none => false
  | some e => decide (now < e)

/-- The expression `Math.floor(Date.now() / 1000) + data.expires_in - 60`, where
`t` is the clock reading and `v` the value of `data.expires_in`. -/
def expiryOf (rt : Runtime) (t : Int) (v : Option Json) : Option Int :=
  match v with
  | none => none
  | some .null => some (t + 0 - 60)
  | some (.bool b) => some (t + (if b then 1 else 0) - 60)
  | some (.num n) => some (t + n - 60)
  | some w => rt.concatMinus60 t w

/-! ## The outside world -/

/-- A response of `fetch`: its HTTP status and the outcome of `response.json()`
(the parsed body, or the message of the parse error). -/
structure HttpResponse where
  status : Nat
  json : Except String Json

/-- The outcome of `await fetch(...)`: a response, or the message of the network
error it throws. -/
abbrev FetchResult := Except String HttpResponse

/-- A network call made by the program. -/
inductive NetCall where
  | identity (url : String) (body : String) : NetCall
  | upstream (url : String) (bearer : Json) (form : List (String × String)) : NetCall

/-- The POST of `getAccessToken` to the identity endpoint. -/
def tokenRequest : NetCall :=
  .identity "https://oauth.fatsecret.com/connect/token" "grant_type=client_credentials"

/-- The POST of a route to the data endpoint, with `Authorization: Bearer ${token}`. -/
def apiRequest (token : Json) (form : List (String × String)) : NetCall :=
  .upstream "https://platform.fatsecret.com/rest/server.api" token form

/-! ## Token cache -/

/-- The module variables `accessToken` and `tokenExpiration`. -/
structure Cache where
  accessToken : Json
  tokenExpiration : Option Int

/-- The values the module variables start with: `null` and `0`. -/
def Cache.init : Cache := ⟨.null, some 0⟩

/-- What a call of `getAccessToken` does: the value it returns or the error it
throws, the module variables afterwards, and the network calls it made. -/
structure TokenOutcome where
  result : Except String Json
  cache : Cache
  calls : List NetCall

/-- The function `getAccessToken`.  `now` is the clock reading at entry, `idFetch` the
answer of the identity endpoint should it be called, `now2` the clock reading
taken after a token has been received.  An `undefined` token is falsy, so the
test `!data.access_token` sends it to the same `throw` as a falsy value. -/
def getAccessToken (rt : Runtime) (c : Cache) (now : Int) (idFetch : FetchResult)
    (now2 : Int) : TokenOutcome :=
  if c.accessToken.truthy && jsLt now c.tokenExpiration then
    ⟨.ok c.accessToken, c, []⟩
  else
    match idFetch with
    | .error m => ⟨.error m, c, [tokenRequest]⟩
    | .ok response =>
      match response.json with
      | .error m => ⟨.error m, c, [tokenRequest]⟩
      | .ok data =>
        match data.prop rt "access_token" with
        | .error m => ⟨.error m, c, [tokenRequest]⟩
        | .ok none => ⟨.error "Erreur de récupération du Token", c, [tokenRequest]⟩
        | .ok (some tok) =>
          if !tok.truthy then
            ⟨.error "Erreur de récupération du Token", c, [tokenRequest]⟩
          else
            match data.prop rt "expires_in" with
            | .error m => ⟨.error m, ⟨tok, c.tokenExpiration⟩, [tokenRequest]⟩
            | .ok e => ⟨.ok tok, ⟨tok, expiryOf rt now2 e⟩, [tokenRequest]⟩

/-! ## Query relay -/

/-- The query string of a request, as far as the routes read it. -/
structure Query where
  food : Option String
  food_id : Option String

/-- The reply sent with `res.status(..).json(..)`; `res.json(..)` alone sends 200. -/
structure Reply where
  status : Nat
  body : Json

/-- The error envelope `{ error: message }`. -/
def errorBody (message : String) : Json := .obj [("error", .str message)]

/-- What a route does: the reply it sends, the module variables afterwards,
whether it invoked `getAccessToken`, and the network calls made, in order. -/
structure RouteOutcome where
  reply : Reply
  cache : Cache
  acquired : Bool
  calls : List NetCall

/-- The lines shared by the two routes after the form has been built: the POST to
the data endpoint, `response.json()`, `res.json(data)`, and the `catch`. -/
def relay (tk : TokenOutcome) (token : Json) (form : List (String × String))
    (upFetch : FetchResult) : RouteOutcome :=
  match upFetch with
  | .error m => ⟨⟨500, errorBody m⟩, tk.cache, true, tk.calls ++ [apiRequest token form]⟩
  | .ok response =>
    match response.json with
    | .error m => ⟨⟨500, errorBody m⟩, tk.cache, true, tk.calls ++ [apiRequest token form]⟩
    | .ok data => ⟨⟨200, data⟩, tk.cache, true, tk.calls ++ [apiRequest token form]⟩

/-- The expression `req.query.food || "Poulet"`. -/
def searchTerm (q : Query) : String :=
  match q.food with
  | some s => if s != "" then s else "Poulet"
  | none => "Poulet"

/-- The route `GET /search_food`. -/
def searchFood (rt : Runtime) (c : Cache) (q : Query) (now : Int) (idFetch : FetchResult)
    (now2 : Int) (upFetch : FetchResult) : RouteOutcome :=
  let tk := getAccessToken rt c now idFetch now2
  match tk.result with
  | .error m => ⟨⟨500, errorBody m⟩, tk.cache, true, tk.calls⟩
  | .ok token =>
    relay tk token
      [("method", "foods.search"), ("search_expression", searchTerm q), ("format", "json")]
      upFetch

/-- The route `GET /get_food_details`.  The test `!foodId` holds when the parameter
is `undefined` and when it is the empty string. -/
def getFoodDetails (rt : Runtime) (c : Cache) (q : Query) (now : Int) (idFetch : FetchResult)
    (now2 : Int) (upFetch : FetchResult) : RouteOutcome :=
  match q.food_id with
  | none => ⟨⟨400, errorBody "food_id is required"⟩, c, false, []⟩
  | some foodId =>
    if foodId == "" then
      ⟨⟨400, errorBody "food_id is required"⟩, c, false, []⟩
    else
      let tk := getAccessToken rt c now idFetch now2
      match tk.result with
      | .error m => ⟨⟨500, errorBody m⟩, tk.cache, true, tk.calls⟩
      | .ok token =>
        relay tk token
          [("method", "food.get.v4"), ("food_id", foodId), ("format", "json")]
          upFetch

/-! ## Histories

The claims about "every reachable cache state" and about the real expiry of a
token speak of what happened before.  A history replays a list of calls of
`getAccessToken` from the initial module state and remembers, beside the module
variables, the last token response that was accepted: the time at which it was
accepted and the lifetime it reported. -/

/-- The inputs of one call of `getAccessToken`. -/
structure Tick where
  now : Int
  idFetch : FetchResult
  now2 : Int

/-- An accepted token response: the token, the clock reading at which it was stored,
and the value of `expires_in` it carried. -/
structure Grant where
  token : Json
  fetchedAt : Int
  expiresIn : Option Json

/-- The token response accepted by a call, when the call asked the identity endpoint
and returned a token. -/
def received (t : Tick) (o : TokenOutcome) : Option Grant :=
  match o.calls, o.result, t.idFetch with
  | _ :: _, .ok tok, .ok ⟨_, .ok data⟩ => some ⟨tok, t.now2, data.field? "expires_in"⟩
  | _, _, _ => none

/-- One call of `getAccessToken` on a history. -/
def step (rt : Runtime) (h : Cache × Option Grant) (t : Tick) : Cache × Option Grant :=
  let o := getAccessToken rt h.1 t.now t.idFetch t.now2
  (o.cache, match received t o with
            | some g => some g
            | none => h.2)

/-- The history after a list of calls, starting from the initial module state. -/
def run (rt : Runtime) (ticks : List Tick) : Cache × Option Grant :=
  ticks.foldl (step rt) (Cache.init, none)

/-- The clock reading at which a call hands its token to the caller: the reading at
entry when the token comes from the cache, the reading taken on storing it when
it was just fetched. -/
def returnedAt (t : Tick) (o : TokenOutcome) : Int :=
  match o.calls with
  | [] => t.now
  | _ :: _ => t.now2

/-- Whether a network call goes to the data endpoint. -/
def NetCall.isUpstream : NetCall → Bool
  | .identity _ _ => false
  | .upstream _ _ _ => true

/-- A runtime to evaluate examples with. -/
def nodeRuntime : Runtime :=
  ⟨"Cannot read properties of null", fun _ _ => none⟩

/-- A token response `{"access_token": tok, "expires_in": n}` with the given status. -/
def tokenResponse (status : Nat) (tok : String) (n : Int) : FetchResult :=
  .ok ⟨status, .ok (.obj [("access_token", .str tok), ("expires_in", .num n)])⟩

/-- The invariant of histories: either no token is stored, or the stored token is
truthy, it is the token of the remembered response, and the stored expiry is the
value computed from the time and lifetime of that response. -/
def Consistent (rt : Runtime) (h : Cache × Option Grant) : Prop :=
  h.1.accessToken = .null ∨
    (h.1.accessToken.truthy = true ∧
      ∃ g, h.2 = some g ∧ g.token = h.1.accessToken ∧
        h.1.tokenExpiration = expiryOf rt g.fetchedAt g.expiresIn)

/-! ## Lemmas on `getAccessToken` -/

theorem getAccessToken_hit (rt : Runtime) (c : Cache) (now : Int) (idFetch : FetchResult)
    (now2 : Int) (h1 : c.accessToken.truthy = true) (h2 : jsLt now c.tokenExpiration = true) :
    getAccessToken rt c now idFetch now2 = ⟨.ok c.accessToken, c, []⟩ := by
  simp [getAccessToken, h1, h2]

theorem prop_of_field (rt : Runtime) (data : Json) (key : String) (v : Json)
    (h : data.field? key = some v) (key2 : String) :
    data.prop rt key2 = .ok (data.field? key2) := by
  cases data <;> simp [Json.prop, Json.field?] at h ⊢

theorem prop_ok_field (rt : Runtime) (data : Json) (key : String) (v : Option Json)
    (h : data.prop rt key = .ok v) : data.field? key = v := by
  cases data <;> simp [Json.prop] at h ⊢ <;> exact h

/-- The three ways a call of `getAccessToken` can go: the cache answers; the identity
endpoint is asked and the call throws, leaving the module variables as they
were; the identity endpoint is asked and its token is stored and returned. -/
theorem getAccessToken_cases (rt : Runtime) (c : Cache) (now : Int) (idFetch : FetchResult)
    (now2 : Int) :
    (c.accessToken.truthy = true ∧ jsLt now c.tokenExpiration = true ∧
      getAccessToken rt c now idFetch now2 = ⟨.ok c.accessToken, c, []⟩) ∨
    ((c.accessToken.truthy && jsLt now c.tokenExpiration) = false ∧
      ∃ m, getAccessToken rt c now idFetch now2 = ⟨.error m, c, [tokenRequest]⟩) ∨
    ((c.accessToken.truthy && jsLt now c.tokenExpiration) = false ∧
      ∃ status data tok, idFetch = .ok ⟨status, .ok data⟩ ∧
        data.field? "access_token" = some tok ∧ tok.truthy = true ∧
        getAccessToken rt c now idFetch now2 =
          ⟨.ok tok, ⟨tok, expiryOf rt now2 (data.field? "expires_in")⟩, [tokenRequest]⟩) := by
  by_cases hc : (c.accessToken.truthy && jsLt now c.tokenExpiration) = true
  · left
    simp only [Bool.and_eq_true] at hc
    exact ⟨hc.1, hc.2, getAccessToken_hit rt c now idFetch now2 hc.1 hc.2⟩
  · right
    have hc2 : (c.accessToken.truthy && jsLt now c.tokenExpiration) = false := by
      simpa using hc
    unfold getAccessToken
    rw [if_neg hc]
    rcases idFetch with m | ⟨status, body⟩
    · left; exact ⟨hc2, m, rfl⟩
    · rcases body with m | data
      · left; exact ⟨hc2, m, rfl⟩
      · simp only
        cases hp : data.prop rt "access_token" with
        | error m => left; exact ⟨hc2, m, rfl⟩
        | ok v =>
          cases v with
          | none => left; exact ⟨hc2, "Erreur de récupération du Token", rfl⟩
          | some tok =>
            have hf := prop_ok_field rt data _ _ hp
            simp only
            by_cases ht : tok.truthy = true
            · right
              refine ⟨hc2, status, data, tok, rfl, hf, ht, ?_⟩
              rw [prop_of_field rt data _ tok hf "expires_in"]
              simp [ht]
            · left
              refine ⟨hc2, "Erreur de récupération du Token", ?_⟩
              simp [ht]

theorem jsLt_some (now e : Int) : jsLt now (some e) = decide (now < e) := rfl

theorem step_consistent (rt : Runtime) (h : Cache × Option Grant) (t : Tick)
    (hinv : Consistent rt h) : Consistent rt (step rt h t) := by
  rcases getAccessToken_cases rt h.1 t.now t.idFetch t.now2 with
    ⟨_, _, ho⟩ | ⟨_, m, ho⟩ | ⟨_, status, data, tok, hf, _, htok, ho⟩
  · simpa [step, ho, received, Consistent] using hinv
  · simpa [step, ho, received, Consistent] using hinv
  · right
    rw [hf] at ho
    simp [step, hf, ho, received, htok]

theorem foldl_consistent (rt : Runtime) (ticks : List Tick) (h : Cache × Option Grant)
    (hinv : Consistent rt h) : Consistent rt (ticks.foldl (step rt) h) := by
  induction ticks generalizing h with
  | nil => exact hinv
  | cons t ts ih => exact ih _ (step_consistent rt h t hinv)

theorem run_consistent (rt : Runtime) (ticks : List Tick) : Consistent rt (run rt ticks) :=
  foldl_consistent rt ticks _ (Or.inl rfl)

theorem run_snoc (rt : Runtime) (ticks : List Tick) (t : Tick) :
    run rt (ticks ++ [t]) = step rt (run rt ticks) t := by
  simp [run, List.foldl_append]

theorem getAccessToken_miss_calls (rt : Runtime) (c : Cache) (now : Int)
    (idFetch : FetchResult) (now2 : Int)
    (h : (c.accessToken.truthy && jsLt now c.tokenExpiration) = false) :
    (getAccessToken rt c now idFetch now2).calls = [tokenRequest] := by
  rcases getAccessToken_cases rt c now idFetch now2 with
    ⟨h1, h2, _⟩ | ⟨_, m, ho⟩ | ⟨_, status, data, tok, _, _, _, ho⟩
  · simp [h1, h2] at h
  · rw [ho]
  · rw [ho]

/-- The routes change the module variables only through `getAccessToken`, so the
cache states the program reaches are those of `run`. -/
theorem searchFood_cache (rt : Runtime) (c : Cache) (q : Query) (now : Int)
    (idFetch : FetchResult) (now2 : Int) (upFetch : FetchResult) :
    (searchFood rt c q now idFetch now2 upFetch).cache =
      (getAccessToken rt c now idFetch now2).cache := by
  cases hr : (getAccessToken rt c now idFetch now2).result with
  | error m => simp only [searchFood, hr]
  | ok tok =>
    simp only [searchFood, hr]
    rcases upFetch with m | ⟨status, m | data⟩ <;> rfl

theorem getFoodDetails_cache (rt : Runtime) (c : Cache) (q : Query) (now : Int)
    (idFetch : FetchResult) (now2 : Int) (upFetch : FetchResult) :
    (getFoodDetails rt c q now idFetch now2 upFetch).cache = c ∨
    (getFoodDetails rt c q now idFetch now2 upFetch).cache =
      (getAccessToken rt c now idFetch now2).cache := by
  cases hq : q.food_id with
  | none => left; simp only [getFoodDetails, hq]
  | some id =>
    by_cases hid : id = ""
    · left; simp [getFoodDetails, hq, hid]
    · right
      cases hr : (getAccessToken rt c now idFetch now2).result with
      | error m => simp [getFoodDetails, hq, hid, hr]
      | ok tok =>
        rcases upFetch with m | ⟨status, m | data⟩ <;> simp [getFoodDetails, hq, hid, hr, relay]

/-! ## The token cache -/

/-- C1: in every cache state reached by the program in which a token is stored and
the current time is strictly before the stored expiry, `getAccessToken` returns
exactly the stored token, makes no network call, and leaves `accessToken` and
`tokenExpiration` as they were. -/
theorem cached_token_served (rt : Runtime) (ticks : List Tick) (now : Int)
    (idFetch : FetchResult) (now2 : Int) (e : Int)
    (hc : (run rt ticks).1.accessToken ≠ .null)
    (he : (run rt ticks).1.tokenExpiration = some e) (hlt : now < e) :
    getAccessToken rt (run rt ticks).1 now idFetch now2 =
      ⟨.ok (run rt ticks).1.accessToken, (run rt ticks).1, []⟩ := by
  rcases run_consistent rt ticks with h | ⟨h, _⟩
  · exact absurd h hc
  · exact getAccessToken_hit rt _ now idFetch now2 h (by simp [he, jsLt_some, hlt])

theorem cached_token_served_witness :
    (run nodeRuntime [⟨1000, tokenResponse 200 "tok" 3600, 1000⟩]).1.accessToken ≠ .null ∧
    (run nodeRuntime [⟨1000, tokenResponse 200 "tok" 3600, 1000⟩]).1.tokenExpiration
      = some 4540 ∧
    getAccessToken nodeRuntime (run nodeRuntime [⟨1000, tokenResponse 200 "tok" 3600, 1000⟩]).1
        2000 (.error "unreachable") 2000 =
      ⟨.ok (.str "tok"), ⟨.str "tok", some 4540⟩, []⟩ :=
  ⟨(by intro h; cases h), rfl,
   cached_token_served nodeRuntime [⟨1000, tokenResponse 200 "tok" 3600, 1000⟩] 2000
     (.error "unreachable") 2000 4540 (by intro h; cases h) rfl (by decide)⟩

/-- C2: when a call of `getAccessToken` asks the identity endpoint, the response
reports `expires_in = N` and the token is stored at clock reading `T`, the stored
expiry is `T + N - 60`; a later call at `T + N - 61` returns the stored token
without a network call, while a call at `T + N - 60` and a call at `T + N - 59`
ask the identity endpoint again. -/
theorem expiry_sixty_before (rt : Runtime) (c : Cache) (now : Int) (status : Nat)
    (data : Json) (T : Int) (tok : Json) (N : Int)
    (hcall : (getAccessToken rt c now (.ok ⟨status, .ok data⟩) T).calls = [tokenRequest])
    (hok : (getAccessToken rt c now (.ok ⟨status, .ok data⟩) T).result = .ok tok)
    (hN : data.field? "expires_in" = some (.num N)) :
    (getAccessToken rt c now (.ok ⟨status, .ok data⟩) T).cache = ⟨tok, some (T + N - 60)⟩ ∧
    (∀ f n2, getAccessToken rt ⟨tok, some (T + N - 60)⟩ (T + N - 61) f n2 =
      ⟨.ok tok, ⟨tok, some (T + N - 60)⟩, []⟩) ∧
    (∀ f n2, (getAccessToken rt ⟨tok, some (T + N - 60)⟩ (T + N - 60) f n2).calls =
      [tokenRequest]) ∧
    (∀ f n2, (getAccessToken rt ⟨tok, some (T + N - 60)⟩ (T + N - 59) f n2).calls =
      [tokenRequest]) := by
  rcases getAccessToken_cases rt c now (.ok ⟨status, .ok data⟩) T with
    ⟨_, _, ho⟩ | ⟨_, m, ho⟩ | ⟨_, status2, data2, tok2, hf, _, htok, ho⟩
  · rw [ho] at hcall; simp at hcall
  · rw [ho] at hok; simp at hok
  · have hd : data = data2 := by
      injection hf with hf
      injection hf with _ hf
      injection hf
    subst hd
    rw [ho] at hok
    have ht : tok2 = tok := by injection hok
    subst ht
    refine ⟨?_, ?_, ?_, ?_⟩
    · rw [ho, hN]; rfl
    · intro f n2
      exact getAccessToken_hit rt _ _ f n2 htok (by simp [jsLt_some])
    · intro f n2
      exact getAccessToken_miss_calls rt _ _ f n2 (by simp [jsLt_some])
    · intro f n2
      exact getAccessToken_miss_calls rt _ _ f n2 (by simp [jsLt_some])

theorem expiry_sixty_before_witness :
    (getAccessToken nodeRuntime Cache.init 1000 (tokenResponse 200 "tok" 3600) 1000).cache =
      ⟨.str "tok", some (1000 + 3600 - 60)⟩ ∧
    (∀ f n2, getAccessToken nodeRuntime ⟨.str "tok", some (1000 + 3600 - 60)⟩
      (1000 + 3600 - 61) f n2 = ⟨.ok (.str "tok"), ⟨.str "tok", some (1000 + 3600 - 60)⟩, []⟩) ∧
    (∀ f n2, (getAccessToken nodeRuntime ⟨.str "tok", some (1000 + 3600 - 60)⟩
      (1000 + 3600 - 60) f n2).calls = [tokenRequest]) ∧
    (∀ f n2, (getAccessToken nodeRuntime ⟨.str "tok", some (1000 + 3600 - 60)⟩
      (1000 + 3600 - 59) f n2).calls = [tokenRequest]) :=
  expiry_sixty_before nodeRuntime Cache.init 1000 200
    (.obj [("access_token", .str "tok"), ("expires_in", .num 3600)]) 1000 (.str "tok") 3600
    rfl rfl rfl

/-- C7: when no token is stored (as in the initial state) or the current time is not
strictly before the stored expiry, `getAccessToken` makes exactly one call, to
the identity endpoint; when the response carries a token, that token is
returned and replaces the stored one, with the expiry computed from the
response. -/
theorem refresh_when_stale (rt : Runtime) (c : Cache) (now : Int) (idFetch : FetchResult)
    (now2 : Int)
    (h : c.accessToken = .null ∨ ∀ e, c.tokenExpiration = some e → e ≤ now) :
    (getAccessToken rt c now idFetch now2).calls = [tokenRequest] ∧
    ∀ status data tok, idFetch = .ok ⟨status, .ok data⟩ →
      data.field? "access_token" = some tok → tok.truthy = true →
      getAccessToken rt c now idFetch now2 =
        ⟨.ok tok, ⟨tok, expiryOf rt now2 (data.field? "expires_in")⟩, [tokenRequest]⟩ := by
  have hmiss : (c.accessToken.truthy && jsLt now c.tokenExpiration) = false := by
    rcases h with h | h
    · simp [h, Json.truthy]
    · cases he : c.tokenExpiration with
      | none => simp [jsLt]
      | some e =>
        have := h e he
        simp [jsLt_some]
        intro _
        exact this
  refine ⟨getAccessToken_miss_calls rt c now idFetch now2 hmiss, ?_⟩
  intro status data tok hf hfield htok
  rcases getAccessToken_cases rt c now idFetch now2 with
    ⟨h1, h2, _⟩ | ⟨_, m, ho⟩ | ⟨_, status2, data2, tok2, hf2, hfield2, _, ho⟩
  · simp [h1, h2] at hmiss
  · exfalso
    subst hf
    simp [getAccessToken, hmiss, prop_of_field rt data _ tok hfield, hfield, htok] at ho
  · rw [hf] at hf2
    have hd : data = data2 := by
      injection hf2 with hf2
      injection hf2 with _ hf2
      injection hf2
    subst hd
    rw [hfield] at hfield2
    have ht : tok = tok2 := by injection hfield2
    subst ht
    exact ho

theorem refresh_when_stale_witness :
    (getAccessToken nodeRuntime Cache.init 1000 (tokenResponse 200 "tok" 3600) 1001).calls =
      [tokenRequest] ∧
    ∀ status data tok, tokenResponse 200 "tok" 3600 = .ok ⟨status, .ok data⟩ →
      data.field? "access_token" = some tok → tok.truthy = true →
      getAccessToken nodeRuntime Cache.init 1000 (tokenResponse 200 "tok" 3600) 1001 =
        ⟨.ok tok, ⟨tok, expiryOf nodeRuntime 1001 (data.field? "expires_in")⟩,
          [tokenRequest]⟩ :=
  refresh_when_stale nodeRuntime Cache.init 1000 (tokenResponse 200 "tok" 3600) 1001
    (Or.inl rfl)

/-- C3: when the identity endpoint is asked and its response has no `access_token`
field, `getAccessToken` throws and `accessToken` and `tokenExpiration` are what they
were before the call, so that a later call made while the previous token is
still valid returns that token; the route that made the call (`/search_food`, or
`/get_food_details`, which acquires a token only for a non-empty food id) answers
with HTTP 500 and the error message. -/
theorem missing_token_keeps_cache (rt : Runtime) (c : Cache) (now : Int) (status : Nat)
    (data : Json) (now2 : Int)
    (hmiss : data.field? "access_token" = none)
    (hcall : (getAccessToken rt c now (.ok ⟨status, .ok data⟩) now2).calls ≠ []) :
    ∃ m, getAccessToken rt c now (.ok ⟨status, .ok data⟩) now2 =
        ⟨.error m, c, [tokenRequest]⟩ ∧
      (∀ later f n2 e, c.accessToken.truthy = true → c.tokenExpiration = some e → later < e →
        getAccessToken rt (getAccessToken rt c now (.ok ⟨status, .ok data⟩) now2).cache
          later f n2 = ⟨.ok c.accessToken, c, []⟩) ∧
      (∀ q upFetch, searchFood rt c q now (.ok ⟨status, .ok data⟩) now2 upFetch =
        ⟨⟨500, errorBody m⟩, c, true, [tokenRequest]⟩) ∧
      (∀ q upFetch id, q.food_id = some id → id ≠ "" →
        getFoodDetails rt c q now (.ok ⟨status, .ok data⟩) now2 upFetch =
          ⟨⟨500, errorBody m⟩, c, true, [tokenRequest]⟩) := by
  rcases getAccessToken_cases rt c now (.ok ⟨status, .ok data⟩) now2 with
    ⟨_, _, ho⟩ | ⟨_, m, ho⟩ | ⟨_, status2, data2, tok2, hf, hfield, _, _⟩
  · rw [ho] at hcall; simp at hcall
  · refine ⟨m, ho, ?_, ?_, ?_⟩
    · intro later f n2 e ht he hlt
      rw [ho]
      exact getAccessToken_hit rt c later f n2 ht (by simp [he, jsLt_some, hlt])
    · intro q upFetch
      simp [searchFood, ho]
    · intro q upFetch id hq hid
      simp [getFoodDetails, hq, hid, ho]
  · exfalso
    have hd : data = data2 := by
      injection hf with hf
      injection hf with _ hf
      injection hf
    subst hd
    rw [hmiss] at hfield
    cases hfield

theorem missing_token_keeps_cache_witness :
    ∃ m, getAccessToken nodeRuntime ⟨.str "old", some 900⟩ 1000
          (.ok ⟨200, .ok (.obj [("error", .str "invalid_client")])⟩) 1000 =
        ⟨.error m, ⟨.str "old", some 900⟩, [tokenRequest]⟩ ∧
      (∀ later f n2 e, (Json.str "old").truthy = true → some (900 : Int) = some e → later < e →
        getAccessToken nodeRuntime (getAccessToken nodeRuntime ⟨.str "old", some 900⟩ 1000
          (.ok ⟨200, .ok (.obj [("error", .str "invalid_client")])⟩) 1000).cache
          later f n2 = ⟨.ok (.str "old"), ⟨.str "old", some 900⟩, []⟩) ∧
      (∀ q upFetch, searchFood nodeRuntime ⟨.str "old", some 900⟩ q 1000
          (.ok ⟨200, .ok (.obj [("error", .str "invalid_client")])⟩) 1000 upFetch =
        ⟨⟨500, errorBody m⟩, ⟨.str "old", some 900⟩, true, [tokenRequest]⟩) ∧
      (∀ q upFetch id, q.food_id = some id → id ≠ "" →
        getFoodDetails nodeRuntime ⟨.str "old", some 900⟩ q 1000
          (.ok ⟨200, .ok (.obj [("error", .str "invalid_client")])⟩) 1000 upFetch =
          ⟨⟨500, errorBody m⟩, ⟨.str "old", some 900⟩, true, [tokenRequest]⟩) :=
  missing_token_keeps_cache nodeRuntime ⟨.str "old", some 900⟩ 1000 200
    (.obj [("error", .str "invalid_client")]) 1000 rfl (List.cons_ne_nil tokenRequest [])

/-- The claim C6 as stated fails: a response with status 500 whose body carries an
`access_token` is accepted, returned and stored. -/
theorem non2xx_with_token_is_cached :
    ¬ (∀ (c : Cache) (now : Int) (status : Nat) (body : Except String Json) (now2 : Int),
        (getAccessToken nodeRuntime c now (.ok ⟨status, body⟩) now2).calls = [tokenRequest] →
        ¬ (200 ≤ status ∧ status < 300) →
        ∃ m, getAccessToken nodeRuntime c now (.ok ⟨status, body⟩) now2 =
          ⟨.error m, c, [tokenRequest]⟩) := by
  intro H
  obtain ⟨m, hm⟩ := H Cache.init 1000 500
    (.ok (.obj [("access_token", .str "tok"), ("expires_in", .num 3600)])) 1000 rfl (by decide)
  have hr := congrArg TokenOutcome.result hm
  cases hr

/-- C6 (amended): when the identity endpoint is asked, `getAccessToken` throws and leaves
`accessToken` and `tokenExpiration` unchanged if the network call fails, if the
body is not JSON, or if the body has no truthy `access_token`; the HTTP status
is not looked at, so that two responses with the same body and different
statuses are treated alike. -/
theorem failures_cache_nothing (rt : Runtime) (c : Cache) (now : Int) (idFetch : FetchResult)
    (now2 : Int)
    (hcall : (getAccessToken rt c now idFetch now2).calls ≠ [])
    (hfail : (∃ m, idFetch = .error m) ∨ (∃ s m, idFetch = .ok ⟨s, .error m⟩) ∨
      (∃ s data, idFetch = .ok ⟨s, .ok data⟩ ∧ truthy? (data.field? "access_token") = false)) :
    (∃ m, getAccessToken rt c now idFetch now2 = ⟨.error m, c, [tokenRequest]⟩) ∧
    (∀ s1 s2 body, getAccessToken rt c now (.ok ⟨s1, body⟩) now2 =
      getAccessToken rt c now (.ok ⟨s2, body⟩) now2) := by
  refine ⟨?_, fun _ _ _ => rfl⟩
  rcases getAccessToken_cases rt c now idFetch now2 with
    ⟨_, _, ho⟩ | ⟨_, m, ho⟩ | ⟨_, status2, data2, tok2, hf, hfield, htok, _⟩
  · rw [ho] at hcall; simp at hcall
  · exact ⟨m, ho⟩
  · exfalso
    rcases hfail with ⟨m, h⟩ | ⟨s, m, h⟩ | ⟨s, data, h, hno⟩
    · rw [h] at hf; cases hf
    · rw [h] at hf; cases hf
    · rw [h] at hf
      have hd : data = data2 := by
        injection hf with hf
        injection hf with _ hf
        injection hf
      subst hd
      rw [hfield] at hno
      simp [truthy?, htok] at hno

theorem failures_cache_nothing_witness :
    (∃ m, getAccessToken nodeRuntime ⟨.str "old", some 900⟩ 1000
        (.ok ⟨503, .error "invalid json response body"⟩) 1000 =
      ⟨.error m, ⟨.str "old", some 900⟩, [tokenRequest]⟩) ∧
    (∀ s1 s2 body, getAccessToken nodeRuntime ⟨.str "old", some 900⟩ 1000 (.ok ⟨s1, body⟩) 1000 =
      getAccessToken nodeRuntime ⟨.str "old", some 900⟩ 1000 (.ok ⟨s2, body⟩) 1000) :=
  failures_cache_nothing nodeRuntime ⟨.str "old", some 900⟩ 1000
    (.ok ⟨503, .error "invalid json response body"⟩) 1000
    (List.cons_ne_nil tokenRequest []) (Or.inr (Or.inl ⟨503, "invalid json response body", rfl⟩))

theorem truthy_ne_null (v : Json) (h : v.truthy = true) : v ≠ .null := by
  intro hv
  rw [hv] at h
  cases h

/-- The claim C5 as stated fails for a token that was just fetched: with
`expires_in = 30` the token is handed out at its fetch time, 30 seconds before its
real expiry. -/
theorem fresh_token_inside_margin :
    ¬ (∀ (ticks : List Tick) (t : Tick) (N : Int) (g : Grant),
        (∃ tok, (getAccessToken nodeRuntime (run nodeRuntime ticks).1
          t.now t.idFetch t.now2).result = .ok tok) →
        (step nodeRuntime (run nodeRuntime ticks) t).2 = some g →
        g.expiresIn = some (.num N) →
        returnedAt t (getAccessToken nodeRuntime (run nodeRuntime ticks).1
          t.now t.idFetch t.now2) + 60 ≤ g.fetchedAt + N) := by
  intro H
  have h := H [] ⟨1000, tokenResponse 200 "tok" 30, 1000⟩ 30 ⟨.str "tok", 1000, some (.num 30)⟩
    ⟨.str "tok", rfl⟩ rfl rfl
  exact absurd h (by decide)

/-- C5 (amended): in every cache state reached by the program in which a token is
stored, that token comes from an accepted response and the stored expiry is the
value `fetch time + expires_in - 60` computed from it; every token served from
the cache is returned strictly more than 60 seconds before its real expiry
(fetch time + `expires_in`); a token that was just fetched is returned at its
fetch time, which is at least 60 seconds before its real expiry exactly when
`expires_in` is at least 60. -/
theorem safety_margin (rt : Runtime) (ticks : List Tick) :
    ((run rt ticks).1.accessToken ≠ .null →
      ∃ g, (run rt ticks).2 = some g ∧ g.token = (run rt ticks).1.accessToken ∧
        (run rt ticks).1.tokenExpiration = expiryOf rt g.fetchedAt g.expiresIn ∧
        ∀ N, g.expiresIn = some (.num N) →
          (run rt ticks).1.tokenExpiration = some (g.fetchedAt + N - 60)) ∧
    (∀ (t : Tick) (tok : Json),
      (getAccessToken rt (run rt ticks).1 t.now t.idFetch t.now2).result = .ok tok →
      ∃ g, (run rt (ticks ++ [t])).2 = some g ∧ g.token = tok ∧
        ∀ N, g.expiresIn = some (.num N) →
          ((getAccessToken rt (run rt ticks).1 t.now t.idFetch t.now2).calls = [] →
            t.now + 60 < g.fetchedAt + N) ∧
          ((getAccessToken rt (run rt ticks).1 t.now t.idFetch t.now2).calls ≠ [] →
            g.fetchedAt = t.now2 ∧ (t.now2 + 60 ≤ g.fetchedAt + N ↔ 60 ≤ N))) := by
  have hstored : (run rt ticks).1.accessToken ≠ .null →
      ∃ g, (run rt ticks).2 = some g ∧ g.token = (run rt ticks).1.accessToken ∧
        (run rt ticks).1.tokenExpiration = expiryOf rt g.fetchedAt g.expiresIn ∧
        ∀ N, g.expiresIn = some (.num N) →
          (run rt ticks).1.tokenExpiration = some (g.fetchedAt + N - 60) := by
    intro hc
    rcases run_consistent rt ticks with h | ⟨_, g, hg, htok, hexp⟩
    · exact absurd h hc
    · refine ⟨g, hg, htok, hexp, ?_⟩
      intro N hN
      rw [hexp, hN]
      rfl
  refine ⟨hstored, ?_⟩
  intro t tok hok
  rw [run_snoc]
  rcases getAccessToken_cases rt (run rt ticks).1 t.now t.idFetch t.now2 with
    ⟨h1, h2, ho⟩ | ⟨_, m, ho⟩ | ⟨_, status, data, tok2, hf, _, _, ho⟩
  · obtain ⟨g, hg, htok, _, hN⟩ := hstored (truthy_ne_null _ h1)
    rw [ho] at hok
    have ht : (run rt ticks).1.accessToken = tok := by injection hok
    refine ⟨g, ?_, htok.trans ht, ?_⟩
    · simp [step, ho, received, hg]
    · intro N hgN
      rw [ho]
      refine ⟨fun _ => ?_, fun h => absurd rfl h⟩
      rw [hN N hgN, jsLt_some] at h2
      have := of_decide_eq_true h2
      omega
  · rw [ho] at hok
    cases hok
  · rw [ho] at hok
    have ht : tok2 = tok := by injection hok
    subst ht
    rw [hf] at ho
    refine ⟨⟨tok2, t.now2, data.field? "expires_in"⟩, ?_, rfl, ?_⟩
    · simp [step, hf, ho, received]
    · intro N _
      rw [hf, ho]
      refine ⟨fun h => ?_, fun _ => ⟨rfl, ?_⟩⟩
      · cases h
      · constructor <;> intro h <;> dsimp only at h ⊢ <;> omega

theorem safety_margin_witness :
    ((run nodeRuntime [⟨1000, tokenResponse 200 "tok" 3600, 1000⟩]).1.accessToken ≠ .null →
      ∃ g, (run nodeRuntime [⟨1000, tokenResponse 200 "tok" 3600, 1000⟩]).2 = some g ∧
        g.token = (run nodeRuntime [⟨1000, tokenResponse 200 "tok" 3600, 1000⟩]).1.accessToken ∧
        (run nodeRuntime [⟨1000, tokenResponse 200 "tok" 3600, 1000⟩]).1.tokenExpiration =
          expiryOf nodeRuntime g.fetchedAt g.expiresIn ∧
        ∀ N, g.expiresIn = some (.num N) →
          (run nodeRuntime [⟨1000, tokenResponse 200 "tok" 3600, 1000⟩]).1.tokenExpiration =
            some (g.fetchedAt + N - 60)) ∧
    (∃ g, (run nodeRuntime ([⟨1000, tokenResponse 200 "tok" 3600, 1000⟩] ++
          [⟨2000, .error "down", 2000⟩])).2 = some g ∧ g.token = .str "tok" ∧
        ∀ N, g.expiresIn = some (.num N) →
          ((getAccessToken nodeRuntime (run nodeRuntime
              [⟨1000, tokenResponse 200 "tok" 3600, 1000⟩]).1 2000 (.error "down") 2000).calls
              = [] → (2000 : Int) + 60 < g.fetchedAt + N) ∧
          ((getAccessToken nodeRuntime (run nodeRuntime
              [⟨1000, tokenResponse 200 "tok" 3600, 1000⟩]).1 2000 (.error "down") 2000).calls
              ≠ [] → g.fetchedAt = 2000 ∧ ((2000 : Int) + 60 ≤ g.fetchedAt + N ↔ 60 ≤ N))) :=
  ⟨(safety_margin nodeRuntime [⟨1000, tokenResponse 200 "tok" 3600, 1000⟩]).1,
   (safety_margin nodeRuntime [⟨1000, tokenResponse 200 "tok" 3600, 1000⟩]).2
     ⟨2000, .error "down", 2000⟩ (.str "tok") rfl⟩

/-! ## The routes -/

/-- C4: a request to `/get_food_details` without `food_id` is answered with HTTP 400
and the body `{"error": "food_id is required"}`; `getAccessToken` is not invoked,
no network call is made, and the token cache is unchanged. -/
theorem details_without_id (rt : Runtime) (c : Cache) (q : Query) (now : Int)
    (idFetch : FetchResult) (now2 : Int) (upFetch : FetchResult)
    (h : q.food_id = none) :
    getFoodDetails rt c q now idFetch now2 upFetch =
      ⟨⟨400, .obj [("error", .str "food_id is required")]⟩, c, false, []⟩ := by
  simp [getFoodDetails, h, errorBody]

theorem details_without_id_witness :
    getFoodDetails nodeRuntime Cache.init ⟨some "Pomme", none⟩ 1000
        (tokenResponse 200 "tok" 3600) 1000 (.ok ⟨200, .ok (.obj [])⟩) =
      ⟨⟨400, .obj [("error", .str "food_id is required")]⟩, Cache.init, false, []⟩ :=
  details_without_id nodeRuntime Cache.init ⟨some "Pomme", none⟩ 1000
    (tokenResponse 200 "tok" 3600) 1000 (.ok ⟨200, .ok (.obj [])⟩) rfl

theorem getAccessToken_no_upstream (rt : Runtime) (c : Cache) (now : Int)
    (idFetch : FetchResult) (now2 : Int) :
    (getAccessToken rt c now idFetch now2).calls.filter NetCall.isUpstream = [] := by
  rcases getAccessToken_cases rt c now idFetch now2 with
    ⟨_, _, ho⟩ | ⟨_, m, ho⟩ | ⟨_, status, data, tok, _, _, _, ho⟩ <;>
  simp [ho, tokenRequest, NetCall.isUpstream]

theorem relay_calls (tk : TokenOutcome) (token : Json) (form : List (String × String))
    (upFetch : FetchResult) :
    (relay tk token form upFetch).calls = tk.calls ++ [apiRequest token form] := by
  rcases upFetch with m | ⟨status, m | data⟩ <;> rfl

theorem relay_reply_ok (tk : TokenOutcome) (token : Json) (form : List (String × String))
    (status : Nat) (data : Json) :
    (relay tk token form (.ok ⟨status, .ok data⟩)).reply = ⟨200, data⟩ := rfl

/-- The claim C8 as stated fails when the `food` parameter is supplied empty
(`/search_food?food=`): the search expression sent upstream is `Poulet`, not the
empty string that was supplied. -/
theorem empty_food_defaults :
    ¬ (∀ (c : Cache) (q : Query) (s : String) (now : Int) (idFetch : FetchResult) (now2 : Int)
        (upFetch : FetchResult) (tok : Json),
        q.food = some s →
        (getAccessToken nodeRuntime c now idFetch now2).result = .ok tok →
        (searchFood nodeRuntime c q now idFetch now2 upFetch).calls.filter NetCall.isUpstream =
          [apiRequest tok
            [("method", "foods.search"), ("search_expression", s), ("format", "json")]]) := by
  intro H
  have h := H Cache.init ⟨some "", none⟩ "" 1000 (tokenResponse 200 "tok" 3600) 1000
    (.ok ⟨200, .ok (.obj [])⟩) (.str "tok") rfl rfl
  have h2 : [apiRequest (.str "tok")
      [("method", "foods.search"), ("search_expression", "Poulet"), ("format", "json")]] =
      [apiRequest (.str "tok")
        [("method", "foods.search"), ("search_expression", ""), ("format", "json")]] := h
  simp [apiRequest] at h2

/-- C8 (amended): when token acquisition succeeds with token `t`, `/search_food` makes
exactly one call to the data endpoint, after those of the token acquisition,
bearer-authenticated with `t`, with the form `method=foods.search`,
`search_expression=<term>`, `format=json`, where the term is the `food` parameter
of the request when it is supplied and not empty, and `Poulet` when it is absent
or empty. -/
theorem search_upstream_call (rt : Runtime) (c : Cache) (q : Query) (now : Int)
    (idFetch : FetchResult) (now2 : Int) (upFetch : FetchResult) (tok : Json)
    (hok : (getAccessToken rt c now idFetch now2).result = .ok tok) :
    ∃ term,
      (searchFood rt c q now idFetch now2 upFetch).calls =
        (getAccessToken rt c now idFetch now2).calls ++
          [apiRequest tok
            [("method", "foods.search"), ("search_expression", term), ("format", "json")]] ∧
      (searchFood rt c q now idFetch now2 upFetch).calls.filter NetCall.isUpstream =
        [apiRequest tok
          [("method", "foods.search"), ("search_expression", term), ("format", "json")]] ∧
      (∀ s, q.food = some s → s ≠ "" → term = s) ∧
      (q.food = none ∨ q.food = some "" → term = "Poulet") := by
  have hcalls : (searchFood rt c q now idFetch now2 upFetch).calls =
      (getAccessToken rt c now idFetch now2).calls ++
        [apiRequest tok
          [("method", "foods.search"), ("search_expression", searchTerm q),
            ("format", "json")]] := by
    simp only [searchFood, hok]
    exact relay_calls _ _ _ _
  refine ⟨searchTerm q, hcalls, ?_, ?_, ?_⟩
  · rw [hcalls, List.filter_append, getAccessToken_no_upstream]
    simp [apiRequest, NetCall.isUpstream]
  · intro s hs hne
    simp [searchTerm, hs, hne]
  · rintro (h | h) <;> simp [searchTerm, h]

theorem search_upstream_call_witness :
    ∃ term,
      (searchFood nodeRuntime Cache.init ⟨none, none⟩ 1000 (tokenResponse 200 "tok" 3600) 1000
          (.ok ⟨200, .ok (.obj [])⟩)).calls =
        (getAccessToken nodeRuntime Cache.init 1000 (tokenResponse 200 "tok" 3600) 1000).calls ++
          [apiRequest (.str "tok")
            [("method", "foods.search"), ("search_expression", term), ("format", "json")]] ∧
      (searchFood nodeRuntime Cache.init ⟨none, none⟩ 1000 (tokenResponse 200 "tok" 3600) 1000
          (.ok ⟨200, .ok (.obj [])⟩)).calls.filter NetCall.isUpstream =
        [apiRequest (.str "tok")
          [("method", "foods.search"), ("search_expression", term), ("format", "json")]] ∧
      (∀ s, (none : Option String) = some s → s ≠ "" → term = s) ∧
      ((none : Option String) = none ∨ (none : Option String) = some "" → term = "Poulet") :=
  search_upstream_call nodeRuntime Cache.init ⟨none, none⟩ 1000 (tokenResponse 200 "tok" 3600)
    1000 (.ok ⟨200, .ok (.obj [])⟩) (.str "tok") rfl

/-- C9: when token acquisition succeeds and the upstream response parses as the JSON
value `J`, the reply of `/search_food`, and that of `/get_food_details` (which
acquires a token only for a non-empty food id), has status 200 and body exactly
`J`, whatever the shape of `J` and whatever the upstream status. -/
theorem passthrough (rt : Runtime) (c : Cache) (q : Query) (now : Int) (idFetch : FetchResult)
    (now2 : Int) (upStatus : Nat) (J : Json) (tok : Json)
    (hok : (getAccessToken rt c now idFetch now2).result = .ok tok) :
    (searchFood rt c q now idFetch now2 (.ok ⟨upStatus, .ok J⟩)).reply = ⟨200, J⟩ ∧
    (∀ id, q.food_id = some id → id ≠ "" →
      (getFoodDetails rt c q now idFetch now2 (.ok ⟨upStatus, .ok J⟩)).reply = ⟨200, J⟩) := by
  constructor
  · simp only [searchFood, hok]
    exact relay_reply_ok _ _ _ _ _
  · intro id hq hid
    simp only [getFoodDetails, hq, hok]
    simp [hid, relay_reply_ok]

theorem passthrough_witness :
    (searchFood nodeRuntime Cache.init ⟨some "Pomme", some "33691"⟩ 1000
        (tokenResponse 200 "tok" 3600) 1000
        (.ok ⟨200, .ok (.obj [("foods", .obj [("food", .arr [])])])⟩)).reply =
      ⟨200, .obj [("foods", .obj [("food", .arr [])])]⟩ ∧
    (∀ id, some "33691" = some id → id ≠ "" →
      (getFoodDetails nodeRuntime Cache.init ⟨some "Pomme", some "33691"⟩ 1000
        (tokenResponse 200 "tok" 3600) 1000
        (.ok ⟨200, .ok (.obj [("foods", .obj [("food", .arr [])])])⟩)).reply =
      ⟨200, .obj [("foods", .obj [("food", .arr [])])]⟩) :=
  passthrough nodeRuntime Cache.init ⟨some "Pomme", some "33691"⟩ 1000
    (tokenResponse 200 "tok" 3600) 1000 200 (.obj [("foods", .obj [("food", .arr [])])])
    (.str "tok") rfl

/-- The claim C10 as stated fails when `food_id` is supplied empty
(`/get_food_details?food_id=`): the reply is HTTP 400 although the query has a
`food_id`. -/
theorem empty_food_id_rejected :
    ¬ (∀ (c : Cache) (q : Query) (now : Int) (idFetch : FetchResult) (now2 : Int)
        (upFetch : FetchResult),
        (getFoodDetails nodeRuntime c q now idFetch now2 upFetch).reply.status = 400 →
        q.food_id = none) := by
  intro H
  have h := H Cache.init ⟨none, some ""⟩ 1000 (tokenResponse 200 "tok" 3600) 1000
    (.ok ⟨200, .ok (.obj [])⟩) rfl
  cases h

/-- C10 (amended): `/get_food_details` answers HTTP 400 exactly when `food_id` is absent
or empty, and then with the body `{"error": "food_id is required"}`; with a
non-empty `food_id`, when token acquisition, the upstream call or the parsing of
its body fails with message `m`, it answers HTTP 500 with body `{"error": m}`;
it never answers 400 to a request with a non-empty `food_id`. -/
theorem details_status (rt : Runtime) (c : Cache) (q : Query) (now : Int)
    (idFetch : FetchResult) (now2 : Int) (upFetch : FetchResult) :
    ((getFoodDetails rt c q now idFetch now2 upFetch).reply.status = 400 ↔
      (q.food_id = none ∨ q.food_id = some "")) ∧
    (q.food_id = none ∨ q.food_id = some "" →
      (getFoodDetails rt c q now idFetch now2 upFetch).reply =
        ⟨400, .obj [("error", .str "food_id is required")]⟩) ∧
    (∀ id, q.food_id = some id → id ≠ "" →
      (∀ m, (getAccessToken rt c now idFetch now2).result = .error m →
        (getFoodDetails rt c q now idFetch now2 upFetch).reply =
          ⟨500, .obj [("error", .str m)]⟩) ∧
      (∀ tok m, (getAccessToken rt c now idFetch now2).result = .ok tok →
        upFetch = .error m →
        (getFoodDetails rt c q now idFetch now2 upFetch).reply =
          ⟨500, .obj [("error", .str m)]⟩) ∧
      (∀ tok status m, (getAccessToken rt c now idFetch now2).result = .ok tok →
        upFetch = .ok ⟨status, .error m⟩ →
        (getFoodDetails rt c q now idFetch now2 upFetch).reply =
          ⟨500, .obj [("error", .str m)]⟩)) := by
  have h400 : q.food_id = none ∨ q.food_id = some "" →
      (getFoodDetails rt c q now idFetch now2 upFetch).reply =
        ⟨400, .obj [("error", .str "food_id is required")]⟩ := by
    rintro (h | h) <;> simp [getFoodDetails, h, errorBody]
  refine ⟨⟨?_, fun h => by rw [h400 h]⟩, h400, ?_⟩
  · intro hs
    cases hq : q.food_id with
    | none => exact Or.inl rfl
    | some id =>
      right
      by_cases hid : id = ""
      · rw [hid]
      · exfalso
        simp only [getFoodDetails, hq] at hs
        cases hr : (getAccessToken rt c now idFetch now2).result with
        | error m => simp [hid, hr] at hs
        | ok tok =>
          rcases upFetch with m | ⟨status, m | data⟩ <;> simp [hid, hr, relay] at hs
  · intro id hq hid
    refine ⟨?_, ?_, ?_⟩
    · intro m hr
      simp [getFoodDetails, hq, hid, hr, errorBody]
    · intro tok m hr hu
      simp [getFoodDetails, hq, hid, hr, hu, relay, errorBody]
    · intro tok status m hr hu
      simp [getFoodDetails, hq, hid, hr, hu, relay, errorBody]

end FitIA
